import Mathlib

/-!
Verification of the rewriting pipeline of a reverse proxy (src/main.ts).

The development shallowly embeds the TypeScript source: JavaScript string
primitives used by the code (split, replaceAll, replace, trimStart,
startsWith, toLowerCase, encodeURIComponent) are modelled as executable
Lean functions on strings; the fetch-API Headers object is modelled as an
association list with case-insensitive names and the combining `get` of
the fetch specification; URL objects are modelled as a record of their
components.  Each function of the source is then translated one-to-one.
-/

set_option maxRecDepth 8192

/-! ## JavaScript string primitives -/

/-- ASCII lowercasing of a character, as used for header-name matching. -/
def lowerChar (c : Char) : Char :=
  if 65 ≤ c.toNat && c.toNat ≤ 90 then Char.ofNat (c.toNat + 32) else c

/-- ASCII lowercasing of a string (byte-lowercase of the fetch spec). -/
def lowerName (s : String) : String := String.mk (s.data.map lowerChar)

/-- Whitespace characters removed by JavaScript `String.prototype.trimStart`
(restricted to the ASCII whitespace that can appear in header values). -/
def jsWhitespace (c : Char) : Bool :=
  c == ' ' || c == '\t' || c == '\n' || c == '\r'

/-- Model of JavaScript `String.prototype.trimStart`. -/
def jsTrimStart (s : String) : String := String.mk (s.data.dropWhile jsWhitespace)

/-- Model of JavaScript `String.prototype.startsWith`. -/
def jsStartsWith (s pre : String) : Bool := pre.data.isPrefixOf s.data

/-- Splitting of a character list on a non-empty separator, scanning left to
right and taking non-overlapping matches, exactly as JavaScript
`String.prototype.split` does.  The fuel argument (instantiated with the
length of the input) only makes the recursion structural; it never runs out
because every step consumes at least one character. -/
def splitChars (sep : List Char) : Nat → List Char → List Char → List (List Char)
  | _, cur, [] => [cur.reverse]
  | 0, cur, l => [cur.reverse ++ l]
  | Nat.succ fuel, cur, c :: rest =>
    if sep.isPrefixOf (c :: rest) then
      cur.reverse :: splitChars sep fuel [] (List.drop sep.length (c :: rest))
    else
      splitChars sep fuel (c :: cur) rest

/-- Model of JavaScript `String.prototype.split` with a string separator
(the source only ever splits on the non-empty separators "," and "."). -/
def jsSplit (s sep : String) : List String :=
  if sep.data.isEmpty then [s]
  else (splitChars sep.data s.data.length [] s.data).map String.mk

/-- Model of JavaScript `String.prototype.replaceAll` with a string pattern:
every non-overlapping occurrence, found left to right, is replaced (the
source only ever uses non-empty patterns). -/
def jsReplaceAll (s pat rep : String) : String :=
  String.intercalate rep (jsSplit s pat)

/-- Model of JavaScript `String.prototype.replace` with a string pattern:
only the first occurrence is replaced. -/
def jsReplaceFirst (s pat rep : String) : String :=
  match jsSplit s pat with
  | [] => s
  | [x] => x
  | x :: rest => x ++ rep ++ String.intercalate pat rest

/-- `occurs pat s` decides whether `pat` occurs in `s` as a substring:
`jsSplit` returns the one-element list `[s]` exactly when the (non-empty)
pattern has no occurrence, and one extra piece per occurrence otherwise. -/
def occurs (pat s : String) : Bool := jsSplit s pat != [s]

/-- UTF-8 bytes of a character, used by `encodeURIComponent`. -/
def utf8Bytes (c : Char) : List Nat :=
  let n := c.toNat
  if n < 128 then [n]
  else if n < 2048 then [192 + n / 64, 128 + n % 64]
  else if n < 65536 then [224 + n / 4096, 128 + (n / 64) % 64, 128 + n % 64]
  else [240 + n / 262144, 128 + (n / 4096) % 64, 128 + (n / 64) % 64, 128 + n % 64]

/-- The bytes left unescaped by JavaScript `encodeURIComponent`:
ASCII alphanumerics and `- _ . ! ~ * ( )` and the apostrophe (byte 39). -/
def uriUnreserved (n : Nat) : Bool :=
  (65 ≤ n && n ≤ 90) || (97 ≤ n && n ≤ 122) || (48 ≤ n && n ≤ 57) ||
  n == 45 || n == 95 || n == 46 || n == 33 || n == 126 || n == 42 ||
  n == 39 || n == 40 || n == 41

/-- Upper-case hexadecimal digit. -/
def hexDigitChar (n : Nat) : Char :=
  if n < 10 then Char.ofNat (48 + n) else Char.ofNat (55 + n)

/-- Percent-encoding of one byte, upper-case hex as in JavaScript. -/
def percentEncode (n : Nat) : String :=
  String.mk ['%', hexDigitChar (n / 16), hexDigitChar (n % 16)]

/-- Model of JavaScript `encodeURIComponent`. -/
def encodeURIComponent (s : String) : String :=
  String.join (s.data.map (fun c =>
    String.join ((utf8Bytes c).map (fun n =>
      if uriUnreserved n then String.mk [Char.ofNat n] else percentEncode n))))

/-! ## The fetch-API Headers object -/

/-- A header list: ordered name/value pairs, names case-insensitive. -/
abbrev HeaderList := List (String × String)

/-- Case-insensitive equality of header names. -/
def headerNameEq (a b : String) : Bool := lowerName a == lowerName b

/-- All values stored under a name, in order. -/
def getValues (hs : HeaderList) (name : String) : List String :=
  (hs.filter (fun p => headerNameEq p.1 name)).map Prod.snd

/-- `Headers.get`: the values of all headers of that name, combined with
a comma and a space, per the fetch specification. -/
def headersGet (hs : HeaderList) (name : String) : Option String :=
  match getValues hs name with
  | [] => none
  | vs => some (String.intercalate ", " vs)

/-- `Headers.has`. -/
def headersHas (hs : HeaderList) (name : String) : Bool :=
  !(getValues hs name).isEmpty

/-- `Headers.delete`: removes every header of that name. -/
def headersDelete (hs : HeaderList) (name : String) : HeaderList :=
  hs.filter (fun p => !headerNameEq p.1 name)

/-- `Headers.append`: adds a header at the end. -/
def headersAppend (hs : HeaderList) (name value : String) : HeaderList :=
  hs ++ [(name, value)]

/-- `Headers.set`: overwrites the value of the first header of that name and
removes the others; appends when the name is absent. -/
def headersSet : HeaderList → String → String → HeaderList
  | [], name, value => [(name, value)]
  | p :: t, name, value =>
    if headerNameEq p.1 name then (p.1, value) :: headersDelete t name
    else p :: headersSet t name value

/-! ## URL objects -/

/-- A URL object, by components.  `port` is `none` when the URL carries no
explicit port (the URL parser elides default ports).  `search` and `hash`
carry their leading `?` and `#` when non-empty. -/
structure URLModel where
  scheme : String
  hostname : String
  port : Option String
  pathname : String
  search : String
  hash : String
deriving DecidableEq

/-- `url.host`: hostname plus `:port` when a port is present. -/
def URLModel.host (u : URLModel) : String :=
  match u.port with
  | none => u.hostname
  | some p => u.hostname ++ ":" ++ p

/-- `url.origin`. -/
def URLModel.origin (u : URLModel) : String := u.scheme ++ "://" ++ u.host

/-- `url.href`, the URL serialization. -/
def URLModel.href (u : URLModel) : String := u.origin ++ u.pathname ++ u.search ++ u.hash

/-- The URL object built by `new URL("https://" + upstreamHost)` in
`newResponseRewriter` (a bare hostname: no port, root path). -/
def mkUpstreamURL (upstreamHost : String) : URLModel :=
  { scheme := "https", hostname := upstreamHost, port := none,
    pathname := "/", search := "", hash := "" }

/-- The URL object built by `new URL(newOrigin)`: platform URL parsing
restricted to origin-shaped inputs, which is how the source uses it (only
the `host` component of this object is ever read). -/
def parseOriginURL (s : String) : URLModel :=
  match jsSplit s "://" with
  | [sc, rest] =>
    let h1 := (jsSplit rest "/").headD ""
    let h2 := (jsSplit h1 "?").headD ""
    let h3 := (jsSplit h2 "#").headD ""
    { scheme := sc, hostname := h3, port := none,
      pathname := "/", search := "", hash := "" }
  | _ =>
    { scheme := s, hostname := "", port := none,
      pathname := "/", search := "", hash := "" }

/-! ## Data model of the proxy -/

/-- The `ory` part of the configuration. -/
structure OryConfig where
  projectHost : String
  apiKey : String
deriving DecidableEq

/-- The configuration value triple (plus listen port) of the source. -/
structure Config where
  port : Nat
  appOrigin : String
  ory : OryConfig
deriving DecidableEq

/-- An HTTP request: method, parsed target URL, headers, body.  Bodies are
modelled as their byte content (a string), `none` when absent. -/
structure RequestModel where
  method : String
  url : URLModel
  headers : HeaderList
  body : Option String
deriving DecidableEq

/-- An HTTP response: status, headers, body. -/
structure ResponseModel where
  status : Nat
  headers : HeaderList
  body : Option String
deriving DecidableEq

/-! ## The functions of src/main.ts -/

/-- `rewriteBody`: a missing body passes through; a body whose Content-Type
is absent or does not start with `text/` passes through as raw bytes; a
textual body has every occurrence of `upstreamHost` (the call site passes
the upstream origin) replaced by `newOrigin`. -/
def rewriteBody (res : ResponseModel) (upstreamHost newOrigin : String) : Option String :=
  match res.body with
  | none => none
  | some content =>
    match headersGet res.headers "Content-Type" with
    | none => some content
    | some contentType =>
      if jsStartsWith contentType "text/" then
        some (jsReplaceAll content upstreamHost newOrigin)
      else some content

/-- The `cookieRewriters` array of `rewriteCookieDomain`: the full host,
then the registrable domain (last two dot-separated labels of the host,
`url.host.split(".").slice(-2).join(".")` in the source). -/
def registrableDomain (host : String) : String :=
  let labels := jsSplit host "."
  String.intercalate "." (labels.drop (labels.length - 2))

/-- The URL components substituted by `rewriteCookieDomain`, in source
order: broadest (full host) to narrowest (registrable domain). -/
def cookieRewriters : List (URLModel → String) :=
  [fun url => url.host, fun url => registrableDomain url.host]

/-- The `reduce` inside `rewriteCookieDomain`: one cookie string, leading
whitespace trimmed, then each rewriter applied as a global substitution of
the URL-encoded upstream component by the URL-encoded new component. -/
def cookieRewriteOne (upstreamURL newURL : URLModel) (cookie : String) : String :=
  cookieRewriters.foldl
    (fun result getURLComponent =>
      jsReplaceAll result
        (encodeURIComponent (getURLComponent upstreamURL))
        (encodeURIComponent (getURLComponent newURL)))
    (jsTrimStart cookie)

/-- `rewriteCookieDomain`: reads the combined Set-Cookie value, deletes the
header, splits the value on commas, and appends one rewritten header per
piece, in order. -/
def rewriteCookieDomain (headers : HeaderList) (upstreamURL newURL : URLModel) : HeaderList :=
  match headersGet headers "Set-Cookie" with
  | none => headers
  | some setCookieHeader =>
    (jsSplit setCookieHeader ",").foldl
      (fun hs cookie => headersAppend hs "Set-Cookie" (cookieRewriteOne upstreamURL newURL cookie))
      (headersDelete headers "Set-Cookie")

/-- `rewriteLocation`: replaces the first occurrence (JavaScript `replace`
with a string pattern) of `upstreamHost` (the call site passes the upstream
origin) by `newOrigin` in the Location header. -/
def rewriteLocation (headers : HeaderList) (upstreamHost newOrigin : String) : HeaderList :=
  match headersGet headers "Location" with
  | none => headers
  | some locationHeader =>
    headersSet headers "Location" (jsReplaceFirst locationHeader upstreamHost newOrigin)

/-- `newRequestRewriter`: the returned closure parses the request URL, sets
its hostname (only the hostname: scheme, port, path, query and fragment are
untouched) to the configured project host, copies the request, and sets the
four control headers, overwriting inbound values. -/
def newRequestRewriter (cfg : Config) (req : RequestModel) : RequestModel :=
  let url := { req.url with hostname := cfg.ory.projectHost }
  let headers1 := headersSet req.headers "Ory-No-Custom-Domain-Redirect" "true"
  let headers2 := headersSet headers1 "Ory-Base-URL-Rewrite" cfg.appOrigin
  let headers3 := headersSet headers2 "Ory-Base-URL-Rewrite-Token" cfg.ory.apiKey
  let headers4 := headersSet headers3 "Ory-Network-Ingress" "T"
  { req with url := url, headers := headers4 }

/-- The first `if` of `newResponseRewriter`: the cookie-domain rewrite runs
only when a Set-Cookie header is present. -/
def cookieStep (upstreamURL newURL : URLModel) (hs : HeaderList) : HeaderList :=
  if headersHas hs "Set-Cookie" then rewriteCookieDomain hs upstreamURL newURL else hs

/-- The second `if` of `newResponseRewriter`: the Location rewrite runs only
when a Location header is present. -/
def locationStep (upstreamOrigin newOrigin : String) (hs : HeaderList) : HeaderList :=
  if headersHas hs "Location" then rewriteLocation hs upstreamOrigin newOrigin else hs

/-- `newResponseRewriter`: the returned closure rewrites the body against
the upstream origin (`new URL("https://" + upstreamHost).origin`), copies
status and headers into a new response, then rewrites cookie domains and
the Location header in place. -/
def newResponseRewriter (upstreamHost newOrigin : String) (r : ResponseModel) : ResponseModel :=
  let upstreamURL := mkUpstreamURL upstreamHost
  let body := rewriteBody r upstreamURL.origin newOrigin
  { r with
    body := body
    headers :=
      locationStep upstreamURL.origin newOrigin
        (cookieStep upstreamURL (parseOriginURL newOrigin) r.headers) }

/-- `Response.redirect(url, status)`: a response with the given status,
a single Location header holding the serialized URL, and no body. -/
def redirectResponse (url : URLModel) (status : Nat) : ResponseModel :=
  { status := status, headers := [("Location", url.href)], body := none }

/-- The branch taken by the handler: the root shortcut produces a response
directly (`Sum.inl`, no upstream call); every other path produces the proxy
request passed to `fetch` (`Sum.inr`). -/
def handlerStep (cfg : Config) (req : RequestModel) : ResponseModel ⊕ RequestModel :=
  if req.url.pathname = "/" then
    Sum.inl (redirectResponse { req.url with pathname := "/ui" } 303)
  else
    Sum.inr (newRequestRewriter cfg req)

/-- `newHandler`, with the network call (`fetch` with redirect-following
disabled) abstracted as the `invoke` collaborator. -/
def newHandler (cfg : Config) (invoke : RequestModel → ResponseModel)
    (req : RequestModel) : ResponseModel :=
  match handlerStep cfg req with
  | Sum.inl res => res
  | Sum.inr proxyReq =>
    newResponseRewriter cfg.ory.projectHost cfg.appOrigin (invoke proxyReq)

/-! ## Lemmas about the header model -/

theorem headerNameEq_iff {a b : String} : headerNameEq a b = true ↔ lowerName a = lowerName b := by
  simp [headerNameEq]

theorem headerNameEq_false_iff {a b : String} :
    headerNameEq a b = false ↔ lowerName a ≠ lowerName b := by
  simp [headerNameEq]

theorem headerNameEq_refl (n : String) : headerNameEq n n = true := by
  simp [headerNameEq]

theorem getValues_nil (n : String) : getValues [] n = [] := rfl

theorem getValues_cons (p : String × String) (t : HeaderList) (n : String) :
    getValues (p :: t) n =
      if headerNameEq p.1 n then p.2 :: getValues t n else getValues t n := by
  simp only [getValues, List.filter_cons]
  cases h : headerNameEq p.1 n <;> simp [h]

theorem getValues_append (hs hs2 : HeaderList) (n : String) :
    getValues (hs ++ hs2) n = getValues hs n ++ getValues hs2 n := by
  simp [getValues, List.filter_append]

theorem getValues_congr {n m : String} (hs : HeaderList) (h : lowerName n = lowerName m) :
    getValues hs n = getValues hs m := by
  induction hs with
  | nil => rfl
  | cons p t ih =>
    rw [getValues_cons, getValues_cons, ih]
    cases hp : headerNameEq p.1 n
    · rw [headerNameEq_false_iff] at hp
      rw [if_neg (by simp), if_neg (by simp [headerNameEq_false_iff, h ▸ hp])]
    · rw [headerNameEq_iff] at hp
      rw [if_pos (by simp), if_pos (by simp [headerNameEq_iff, hp, h])]

theorem getValues_delete_self {n m : String} (hs : HeaderList) (h : lowerName n = lowerName m) :
    getValues (headersDelete hs m) n = [] := by
  induction hs with
  | nil => rfl
  | cons p t ih =>
    simp only [headersDelete, List.filter_cons] at *
    cases hp : headerNameEq p.1 m
    · have hn : headerNameEq p.1 n = false := by
        rw [headerNameEq_false_iff] at hp ⊢
        exact fun hc => hp (hc.trans h)
      simp [hp, getValues_cons, hn, ih]
    · simp [hp, ih]

theorem getValues_delete_ne {n m : String} (hs : HeaderList) (h : lowerName n ≠ lowerName m) :
    getValues (headersDelete hs m) n = getValues hs n := by
  induction hs with
  | nil => rfl
  | cons p t ih =>
    simp only [headersDelete, List.filter_cons] at *
    cases hp : headerNameEq p.1 m
    · simp only [hp, Bool.not_false, if_pos, getValues_cons, ih]
    · rw [headerNameEq_iff] at hp
      have : headerNameEq p.1 n = false := by
        rw [headerNameEq_false_iff, hp]
        exact fun hc => h hc.symm
      simp [getValues_cons, this, ih]

theorem headersDelete_of_getValues_nil {n : String} {hs : HeaderList}
    (h : getValues hs n = []) : headersDelete hs n = hs := by
  induction hs with
  | nil => rfl
  | cons p t ih =>
    rw [getValues_cons] at h
    cases hp : headerNameEq p.1 n
    · rw [if_neg (by simp [hp])] at h
      simp [headersDelete, hp] at ih ⊢
      exact ih h
    · rw [if_pos (by simp [hp])] at h
      exact absurd h (by simp)

theorem getValues_set_self {n m : String} (hs : HeaderList) (v : String)
    (h : lowerName n = lowerName m) :
    getValues (headersSet hs m v) n = [v] := by
  induction hs with
  | nil =>
    have hn : headerNameEq m n = true := by rw [headerNameEq_iff]; exact h.symm
    simp [headersSet, getValues_cons, hn, getValues_nil]
  | cons p t ih =>
    rw [headersSet]
    cases hp : headerNameEq p.1 m
    · have hn : headerNameEq p.1 n = false := by
        rw [headerNameEq_false_iff] at hp ⊢
        exact fun hc => hp (hc.trans h)
      rw [if_neg (by simp [hp]), getValues_cons, if_neg (by simp [hn]), ih]
    · rw [headerNameEq_iff] at hp
      have hn : headerNameEq p.1 n = true := by
        rw [headerNameEq_iff]; exact hp.trans h.symm
      rw [if_pos (by simp [headerNameEq_iff, hp]), getValues_cons, if_pos (by simp [hn]),
        getValues_delete_self t h]

theorem getValues_set_ne {n m : String} (hs : HeaderList) (v : String)
    (h : lowerName n ≠ lowerName m) :
    getValues (headersSet hs m v) n = getValues hs n := by
  induction hs with
  | nil =>
    simp [headersSet, getValues_cons, headerNameEq_false_iff]
    exact fun hc => h hc.symm
  | cons p t ih =>
    rw [headersSet]
    cases hp : headerNameEq p.1 m
    · rw [if_neg (by simp [hp]), getValues_cons, getValues_cons, ih]
    · rw [headerNameEq_iff] at hp
      have hn : headerNameEq p.1 n = false := by
        rw [headerNameEq_false_iff, hp]
        exact fun hc => h hc.symm
      rw [if_pos (by simp [headerNameEq_iff, hp]), getValues_cons, getValues_cons,
        if_neg (by simp [hn]), if_neg (by simp [hn]), getValues_delete_ne t h]

theorem headersSet_of_getValues_single {n v : String} {hs : HeaderList}
    (h : getValues hs n = [v]) : headersSet hs n v = hs := by
  induction hs with
  | nil => simp [getValues] at h
  | cons p t ih =>
    rw [getValues_cons] at h
    rw [headersSet]
    cases hp : headerNameEq p.1 n
    · rw [if_neg (by simp [hp])]
      rw [if_neg (by simp [hp])] at h
      rw [ih h]
    · rw [if_pos (by simp [hp])] at h ⊢
      have hv : p.2 = v := by injection h
      have ht : getValues t n = [] := by injection h
      rw [headersDelete_of_getValues_nil ht, ← hv]

theorem getValues_foldl_append_same {m n : String} (f : String → String)
    (h : headerNameEq m n = true) (l : List String) :
    ∀ h0 : HeaderList,
      getValues (l.foldl (fun hs c => headersAppend hs m (f c)) h0) n =
        getValues h0 n ++ l.map f := by
  induction l with
  | nil => intro h0; simp
  | cons c rest ih =>
    intro h0
    rw [List.foldl_cons, ih, headersAppend, getValues_append, getValues_cons,
      if_pos (by simp [h]), getValues_nil]
    simp

theorem getValues_foldl_append_ne {m n : String} (f : String → String)
    (h : headerNameEq m n = false) (l : List String) :
    ∀ h0 : HeaderList,
      getValues (l.foldl (fun hs c => headersAppend hs m (f c)) h0) n =
        getValues h0 n := by
  induction l with
  | nil => intro h0; rfl
  | cons c rest ih =>
    intro h0
    rw [List.foldl_cons, ih, headersAppend, getValues_append, getValues_cons,
      if_neg (by simp [h]), getValues_nil]
    simp

theorem headersGet_of_getValues_single {n v : String} {hs : HeaderList}
    (h : getValues hs n = [v]) : headersGet hs n = some v := by
  unfold headersGet
  rw [h]
  rfl

theorem headersGet_none_iff {n : String} {hs : HeaderList} :
    headersGet hs n = none ↔ getValues hs n = [] := by
  unfold headersGet
  cases h : getValues hs n <;> simp

theorem headersHas_of_get_some {n v : String} {hs : HeaderList}
    (h : headersGet hs n = some v) : headersHas hs n = true := by
  unfold headersGet at h
  unfold headersHas
  cases hv : getValues hs n
  · rw [hv] at h; exact absurd h (by simp)
  · simp [hv]

theorem headersHas_false_iff {n : String} {hs : HeaderList} :
    headersHas hs n = false ↔ getValues hs n = [] := by
  unfold headersHas
  cases hv : getValues hs n <;> simp

/-! ## Lemmas about occurrence and substitution -/

theorem jsSplit_single_of_not_occurs {pat s : String} (h : occurs pat s = false) :
    jsSplit s pat = [s] := by
  unfold occurs at h
  simpa using h

theorem intercalate_single (sep a : String) : String.intercalate sep [a] = a := rfl

theorem jsReplaceAll_no_occurs {pat s : String} (h : occurs pat s = false) (rep : String) :
    jsReplaceAll s pat rep = s := by
  unfold jsReplaceAll
  rw [jsSplit_single_of_not_occurs h, intercalate_single]

theorem jsReplaceFirst_no_occurs {pat s : String} (h : occurs pat s = false) (rep : String) :
    jsReplaceFirst s pat rep = s := by
  unfold jsReplaceFirst
  rw [jsSplit_single_of_not_occurs h]

/-! ## Lemmas about the response rewriter -/

theorem headersGet_ext {n : String} {hs hs2 : HeaderList}
    (h : getValues hs n = getValues hs2 n) : headersGet hs n = headersGet hs2 n := by
  unfold headersGet
  rw [h]

theorem newResponseRewriter_body (upstreamHost newOrigin : String) (r : ResponseModel) :
    (newResponseRewriter upstreamHost newOrigin r).body =
      rewriteBody r ("https://" ++ upstreamHost) newOrigin := rfl

theorem newResponseRewriter_headers (upstreamHost newOrigin : String) (r : ResponseModel) :
    (newResponseRewriter upstreamHost newOrigin r).headers =
      locationStep ("https://" ++ upstreamHost) newOrigin
        (cookieStep (mkUpstreamURL upstreamHost) (parseOriginURL newOrigin) r.headers) := rfl

theorem newResponseRewriter_status (upstreamHost newOrigin : String) (r : ResponseModel) :
    (newResponseRewriter upstreamHost newOrigin r).status = r.status := rfl

theorem getValues_cookieStep_ne {n : String} (uU nU : URLModel) (hs : HeaderList)
    (h : lowerName n ≠ lowerName "Set-Cookie") :
    getValues (cookieStep uU nU hs) n = getValues hs n := by
  unfold cookieStep
  cases hh : headersHas hs "Set-Cookie"
  · simp
  · simp only [if_true]
    cases hg : headersGet hs "Set-Cookie" with
    | none => unfold rewriteCookieDomain; rw [hg]
    | some v =>
      unfold rewriteCookieDomain
      rw [hg]
      rw [getValues_foldl_append_ne _ (by rw [headerNameEq_false_iff]; exact fun hc => h hc.symm)]
      exact getValues_delete_ne hs h

theorem getValues_cookieStep_sc {n : String} (uU nU : URLModel) (hs : HeaderList) (v : String)
    (hg : headersGet hs "Set-Cookie" = some v) (hn : lowerName n = lowerName "Set-Cookie") :
    getValues (cookieStep uU nU hs) n = (jsSplit v ",").map (cookieRewriteOne uU nU) := by
  unfold cookieStep
  rw [headersHas_of_get_some hg, if_pos rfl]
  unfold rewriteCookieDomain
  rw [hg]
  rw [getValues_foldl_append_same _ (by rw [headerNameEq_iff]; exact hn.symm)]
  rw [getValues_delete_self hs hn, List.nil_append]

theorem cookieStep_of_get_none (uU nU : URLModel) (hs : HeaderList)
    (hg : headersGet hs "Set-Cookie" = none) : cookieStep uU nU hs = hs := by
  unfold cookieStep
  rw [headersHas_false_iff.mpr (headersGet_none_iff.mp hg)]
  simp

theorem getValues_locationStep_ne {n : String} (o nw : String) (hs : HeaderList)
    (h : lowerName n ≠ lowerName "Location") :
    getValues (locationStep o nw hs) n = getValues hs n := by
  unfold locationStep
  cases hh : headersHas hs "Location"
  · simp
  · simp only [if_true]
    cases hg : headersGet hs "Location" with
    | none => unfold rewriteLocation; rw [hg]
    | some loc =>
      unfold rewriteLocation
      rw [hg]
      exact getValues_set_ne hs _ h

theorem locationStep_get (o nw : String) (hs : HeaderList) (loc : String)
    (hg : headersGet hs "Location" = some loc) :
    headersGet (locationStep o nw hs) "Location" = some (jsReplaceFirst loc o nw) := by
  unfold locationStep
  rw [headersHas_of_get_some hg, if_pos rfl]
  unfold rewriteLocation
  rw [hg]
  exact headersGet_of_getValues_single (getValues_set_self hs _ rfl)

theorem locationStep_of_get_none (o nw : String) (hs : HeaderList)
    (hg : headersGet hs "Location" = none) : locationStep o nw hs = hs := by
  unfold locationStep
  rw [headersHas_false_iff.mpr (headersGet_none_iff.mp hg)]
  simp

/-! ## Claim C4 -/

/-- Claim C4 (confirmed): for a response with a body, a textual
Content-Type (one starting with `text/`) leads to a global replacement of
the upstream origin `https://upstreamHost` by the public origin in the
body, while any other Content-Type (such as `application/octet-stream`),
and likewise an absent Content-Type header, leaves the body bytes
untouched. -/
theorem C4_body_rewrite_scope (upstreamHost newOrigin : String) (r : ResponseModel)
    (b : String) (hb : r.body = some b) :
    (newResponseRewriter upstreamHost newOrigin r).body =
      match headersGet r.headers "Content-Type" with
      | none => some b
      | some ct =>
        if jsStartsWith ct "text/" then
          some (jsReplaceAll b ("https://" ++ upstreamHost) newOrigin)
        else some b := by
  cases hct : headersGet r.headers "Content-Type" with
  | none =>
    rw [newResponseRewriter_body]
    simp [rewriteBody, hb, hct]
  | some ct =>
    rw [newResponseRewriter_body]
    simp [rewriteBody, hb, hct]

/-- The text/html response of the spec example, with two occurrences of
the upstream origin. -/
def textResponseEx : ResponseModel :=
  { status := 200,
    headers := [("Content-Type", "text/html; charset=utf-8")],
    body := some "see https://upstream.example.com/login and https://upstream.example.com/x" }

/-- The application/octet-stream response of the spec example, whose bytes
contain the upstream host string. -/
def binaryResponseEx : ResponseModel :=
  { status := 200,
    headers := [("Content-Type", "application/octet-stream")],
    body := some "raw https://upstream.example.com bytes" }

/-- A response with no Content-Type header at all, whose bytes contain the
upstream origin. -/
def headerlessResponseEx : ResponseModel :=
  { status := 200,
    headers := [],
    body := some "opaque https://upstream.example.com bytes" }

/-- Witness for C4: the text/html body has both occurrences replaced; the
octet-stream body and the body with no Content-Type header pass through
unchanged. -/
theorem C4_witness :
    (newResponseRewriter "upstream.example.com" "https://app.example.org" textResponseEx).body =
      some "see https://app.example.org/login and https://app.example.org/x" ∧
    (newResponseRewriter "upstream.example.com" "https://app.example.org" binaryResponseEx).body =
      some "raw https://upstream.example.com bytes" ∧
    (newResponseRewriter "upstream.example.com" "https://app.example.org"
      headerlessResponseEx).body =
      some "opaque https://upstream.example.com bytes" := by
  refine ⟨?_, ?_, ?_⟩
  · rw [C4_body_rewrite_scope "upstream.example.com" "https://app.example.org" textResponseEx
      "see https://upstream.example.com/login and https://upstream.example.com/x" (by decide)]
    decide
  · rw [C4_body_rewrite_scope "upstream.example.com" "https://app.example.org" binaryResponseEx
      "raw https://upstream.example.com bytes" (by decide)]
    decide
  · rw [C4_body_rewrite_scope "upstream.example.com" "https://app.example.org"
      headerlessResponseEx "opaque https://upstream.example.com bytes" (by decide)]
    decide

/-! ## Claim C10 -/

/-- Claim C10 (confirmed): the body rewriter treats a response as textual
exactly when its Content-Type starts with `text/`: when the prefix test
fails (as for application/json or application/javascript) the body passes
through unchanged even when it contains the upstream origin, and when it
holds the body gets the global upstream-origin substitution. -/
theorem C10_text_prefix_boundary (upstreamHost newOrigin : String) (r : ResponseModel)
    (b ct : String) (hb : r.body = some b)
    (hct : headersGet r.headers "Content-Type" = some ct) :
    (jsStartsWith ct "text/" = false →
      (newResponseRewriter upstreamHost newOrigin r).body = some b) ∧
    (jsStartsWith ct "text/" = true →
      (newResponseRewriter upstreamHost newOrigin r).body =
        some (jsReplaceAll b ("https://" ++ upstreamHost) newOrigin)) := by
  constructor <;> intro hpre <;> rw [newResponseRewriter_body] <;>
    simp [rewriteBody, hb, hct, hpre]

/-- An application/json response whose body contains the upstream origin. -/
def jsonResponseEx : ResponseModel :=
  { status := 200,
    headers := [("Content-Type", "application/json")],
    body := some "url: https://upstream.example.com/self-service" }

/-- Witness for C10: the application/json body is untouched, while a
text/html body (prefix test true) gets the substitution. -/
theorem C10_witness :
    (newResponseRewriter "upstream.example.com" "https://app.example.org" jsonResponseEx).body =
      some "url: https://upstream.example.com/self-service" ∧
    (newResponseRewriter "upstream.example.com" "https://app.example.org" textResponseEx).body =
      some "see https://app.example.org/login and https://app.example.org/x" := by
  constructor
  · exact (C10_text_prefix_boundary "upstream.example.com" "https://app.example.org"
      jsonResponseEx "url: https://upstream.example.com/self-service" "application/json"
      (by decide) (by decide)).1 (by decide)
  · rw [(C10_text_prefix_boundary "upstream.example.com" "https://app.example.org"
      textResponseEx "see https://upstream.example.com/login and https://upstream.example.com/x"
      "text/html; charset=utf-8" (by decide) (by decide)).2 (by decide)]
    decide

/-! ## Claim C1 -/

/-- Counterexample for C1: with a Location value holding two occurrences of
the upstream origin, the rewriter replaces only the first one, so the
second occurrence of the upstream origin survives in the output. -/
theorem C1_counterexample :
    headersGet
      (newResponseRewriter "upstream.example.com" "https://app.example.org"
        { status := 302,
          headers :=
            [("Location", "https://upstream.example.com/a?next=https://upstream.example.com/b")],
          body := none }).headers "Location" =
      some "https://app.example.org/a?next=https://upstream.example.com/b" ∧
    "https://app.example.org/a?next=https://upstream.example.com/b" ≠
      "https://app.example.org/a?next=https://app.example.org/b" := by
  decide

/-- Claim C1 (corrected): the rewriter replaces the FIRST literal
occurrence of the upstream origin `https://upstreamHost` by the public
origin in the Location header value (JavaScript `replace` with a string
pattern replaces one occurrence, not all); for a Location value with a
single occurrence, such as the 302 example of the spec, this coincides
with replacing every occurrence. -/
theorem C1_location_first_occurrence (upstreamHost newOrigin : String) (r : ResponseModel)
    (loc : String) (hloc : headersGet r.headers "Location" = some loc) :
    headersGet (newResponseRewriter upstreamHost newOrigin r).headers "Location" =
      some (jsReplaceFirst loc ("https://" ++ upstreamHost) newOrigin) := by
  rw [newResponseRewriter_headers]
  have hcs : headersGet
      (cookieStep (mkUpstreamURL upstreamHost) (parseOriginURL newOrigin) r.headers)
      "Location" = some loc := by
    rw [headersGet_ext (getValues_cookieStep_ne _ _ _ (by decide))]
    exact hloc
  exact locationStep_get _ _ _ _ hcs

/-- The 302 redirect response of the spec example. -/
def redirectResponseEx : ResponseModel :=
  { status := 302,
    headers := [("Location", "https://upstream.example.com/callback?x=1")],
    body := none }

/-- Witness for C1: the 302 example of the spec is rewritten to the public
origin. -/
theorem C1_witness :
    headersGet
      (newResponseRewriter "upstream.example.com" "https://app.example.org"
        redirectResponseEx).headers "Location" =
      some "https://app.example.org/callback?x=1" := by
  rw [C1_location_first_occurrence "upstream.example.com" "https://app.example.org"
    redirectResponseEx "https://upstream.example.com/callback?x=1" (by decide)]
  decide

/-! ## Claim C5 -/

/-- The host of `new URL("https://" + h)` is the bare host. -/
theorem mkUpstreamURL_host (h : String) : (mkUpstreamURL h).host = h := rfl

/-- Claim C5 (confirmed): every cookie string obtained from the combined
Set-Cookie value, leading whitespace trimmed, goes through exactly two
global substitution passes in fixed order: first the URL-encoded full
upstream host is replaced by the URL-encoded full public host, then the
URL-encoded upstream registrable domain (last two labels) is replaced by
the URL-encoded registrable domain of the public host. -/
theorem C5_cookie_two_passes (upstreamHost newOrigin : String) (r : ResponseModel)
    (v : String) (hg : headersGet r.headers "Set-Cookie" = some v) :
    getValues (newResponseRewriter upstreamHost newOrigin r).headers "Set-Cookie" =
      (jsSplit v ",").map (fun cookie =>
        jsReplaceAll
          (jsReplaceAll (jsTrimStart cookie)
            (encodeURIComponent upstreamHost)
            (encodeURIComponent (parseOriginURL newOrigin).host))
          (encodeURIComponent (registrableDomain upstreamHost))
          (encodeURIComponent (registrableDomain (parseOriginURL newOrigin).host))) := by
  rw [newResponseRewriter_headers]
  rw [getValues_locationStep_ne _ _ _ (by decide)]
  rw [getValues_cookieStep_sc _ _ _ v hg rfl]
  rfl

/-- The Set-Cookie response of the spec example. -/
def cookieResponseEx : ResponseModel :=
  { status := 200,
    headers := [("Set-Cookie", "session=abc; Domain=upstream.example.com")],
    body := none }

/-- Witness for C5: the Domain attribute of the spec example cookie ends up
reading app.example.org. -/
theorem C5_witness :
    getValues (newResponseRewriter "upstream.example.com" "https://app.example.org"
      cookieResponseEx).headers "Set-Cookie" =
      ["session=abc; Domain=app.example.org"] := by
  rw [C5_cookie_two_passes "upstream.example.com" "https://app.example.org" cookieResponseEx
    "session=abc; Domain=upstream.example.com" (by decide)]
  decide

/-! ## Claim C7 -/

/-- Claim C7 (confirmed): a single Set-Cookie header carrying two
comma-joined cookies yields exactly two Set-Cookie headers, in the
original order, each independently rewritten (`cookieRewriteOne`), the
original combined header being gone. -/
theorem C7_multi_cookie (upstreamHost newOrigin : String) (r : ResponseModel)
    (v c1 c2 : String) (hg : headersGet r.headers "Set-Cookie" = some v)
    (hsplit : jsSplit v "," = [c1, c2]) :
    getValues (newResponseRewriter upstreamHost newOrigin r).headers "Set-Cookie" =
      [cookieRewriteOne (mkUpstreamURL upstreamHost) (parseOriginURL newOrigin) c1,
       cookieRewriteOne (mkUpstreamURL upstreamHost) (parseOriginURL newOrigin) c2] := by
  rw [newResponseRewriter_headers]
  rw [getValues_locationStep_ne _ _ _ (by decide)]
  rw [getValues_cookieStep_sc _ _ _ v hg rfl, hsplit]
  rfl

/-- A response whose single Set-Cookie header carries two comma-joined
cookies. -/
def multiCookieResponseEx : ResponseModel :=
  { status := 200,
    headers :=
      [("Set-Cookie", "a=1; Domain=upstream.example.com, b=2; Domain=upstream.example.com")],
    body := none }

/-- Witness for C7: two separate rewritten Set-Cookie headers come out, in
order. -/
theorem C7_witness :
    getValues (newResponseRewriter "upstream.example.com" "https://app.example.org"
      multiCookieResponseEx).headers "Set-Cookie" =
      ["a=1; Domain=app.example.org", "b=2; Domain=app.example.org"] := by
  rw [C7_multi_cookie "upstream.example.com" "https://app.example.org" multiCookieResponseEx
    "a=1; Domain=upstream.example.com, b=2; Domain=upstream.example.com"
    "a=1; Domain=upstream.example.com" " b=2; Domain=upstream.example.com"
    (by decide) (by decide)]
  decide

/-! ## Claim C8 -/

theorem newRequestRewriter_headers (cfg : Config) (req : RequestModel) :
    (newRequestRewriter cfg req).headers =
      headersSet
        (headersSet
          (headersSet
            (headersSet req.headers "Ory-No-Custom-Domain-Redirect" "true")
            "Ory-Base-URL-Rewrite" cfg.appOrigin)
          "Ory-Base-URL-Rewrite-Token" cfg.ory.apiKey)
        "Ory-Network-Ingress" "T" := rfl

/-- Claim C8 (confirmed): whatever the inbound request carried, the
outbound request holds exactly one value for each of the four control
headers: the redirect-suppression flag `true`, the public origin, the
shared API key, and the ingress marker `T` (overwrite, not merge). -/
theorem C8_control_headers (cfg : Config) (req : RequestModel) :
    getValues (newRequestRewriter cfg req).headers "Ory-No-Custom-Domain-Redirect" = ["true"] ∧
    getValues (newRequestRewriter cfg req).headers "Ory-Base-URL-Rewrite" = [cfg.appOrigin] ∧
    getValues (newRequestRewriter cfg req).headers "Ory-Base-URL-Rewrite-Token" =
      [cfg.ory.apiKey] ∧
    getValues (newRequestRewriter cfg req).headers "Ory-Network-Ingress" = ["T"] := by
  rw [newRequestRewriter_headers]
  refine ⟨?_, ?_, ?_, ?_⟩
  · rw [getValues_set_ne _ _ (by decide), getValues_set_ne _ _ (by decide),
      getValues_set_ne _ _ (by decide), getValues_set_self _ _ rfl]
  · rw [getValues_set_ne _ _ (by decide), getValues_set_ne _ _ (by decide),
      getValues_set_self _ _ rfl]
  · rw [getValues_set_ne _ _ (by decide), getValues_set_self _ _ rfl]
  · rw [getValues_set_self _ _ rfl]

/-! ## Claim C3 -/

/-- The configuration used by the concrete examples. -/
def cfgEx : Config :=
  { port := 8080,
    appOrigin := "https://app.example.org",
    ory := { projectHost := "upstream.example.com", apiKey := "secret-key" } }

/-- An inbound request as a locally served proxy sees it: plain http on an
explicit port. -/
def localRequestEx : RequestModel :=
  { method := "GET",
    url := { scheme := "http", hostname := "localhost", port := some "8080",
             pathname := "/self-service", search := "?flow=1", hash := "" },
    headers := [], body := none }

/-- Counterexample for C3: the rewriter sets only the hostname, so the
outbound URL host keeps the inbound port and is not equal to
upstreamHost. -/
theorem C3_counterexample :
    (newRequestRewriter cfgEx localRequestEx).url.host = "upstream.example.com:8080" ∧
    "upstream.example.com:8080" ≠ "upstream.example.com" := by
  decide

/-- Claim C3 (corrected): the outbound URL hostname equals the configured
upstream host, and scheme, port, path, query and fragment are untouched;
the full host (hostname plus port) equals upstreamHost only when the
inbound URL carries no explicit port. -/
theorem C3_hostname_rewrite (cfg : Config) (req : RequestModel) :
    (newRequestRewriter cfg req).url.hostname = cfg.ory.projectHost ∧
    (newRequestRewriter cfg req).url.scheme = req.url.scheme ∧
    (newRequestRewriter cfg req).url.port = req.url.port ∧
    (newRequestRewriter cfg req).url.pathname = req.url.pathname ∧
    (newRequestRewriter cfg req).url.search = req.url.search ∧
    (newRequestRewriter cfg req).url.hash = req.url.hash ∧
    (req.url.port = none →
      (newRequestRewriter cfg req).url.host = cfg.ory.projectHost) := by
  refine ⟨rfl, rfl, rfl, rfl, rfl, rfl, fun hp => ?_⟩
  unfold newRequestRewriter URLModel.host
  simp [hp]

/-- A portless https inbound request on a non-root path, carrying a spoofed
control header. -/
def portlessRequestEx : RequestModel :=
  { method := "POST",
    url := { scheme := "https", hostname := "app.example.org", port := none,
             pathname := "/self-service", search := "", hash := "" },
    headers := [("Ory-Network-Ingress", "spoofed")],
    body := some "flow-data" }

/-- Witness for C3: on a portless inbound URL, the outbound host equals the
upstream host exactly. -/
theorem C3_witness :
    (newRequestRewriter cfgEx portlessRequestEx).url.host = "upstream.example.com" :=
  (C3_hostname_rewrite cfgEx portlessRequestEx).2.2.2.2.2.2 rfl

/-! ## Claim C9 -/

/-- Counterexample for C9: the outbound scheme is inherited from the
inbound request, so an http inbound request produces an http outbound
request, not an https one. -/
theorem C9_counterexample :
    (newRequestRewriter cfgEx localRequestEx).url.scheme = "http" ∧
    "http" ≠ "https" := by
  decide

/-- Claim C9 (corrected): on any non-root path the handler sends the
rewritten request to the invoker; that outbound request keeps the inbound
method, path, query and body, targets the configured upstream host, and
keeps the inbound scheme: it is https exactly when the inbound request
was https (the code never forces the scheme to https). -/
theorem C9_outbound_request (cfg : Config) (req : RequestModel)
    (h : req.url.pathname ≠ "/") :
    handlerStep cfg req = Sum.inr (newRequestRewriter cfg req) ∧
    (newRequestRewriter cfg req).url.hostname = cfg.ory.projectHost ∧
    (newRequestRewriter cfg req).method = req.method ∧
    (newRequestRewriter cfg req).url.pathname = req.url.pathname ∧
    (newRequestRewriter cfg req).url.search = req.url.search ∧
    (newRequestRewriter cfg req).body = req.body ∧
    (newRequestRewriter cfg req).url.scheme = req.url.scheme ∧
    ((newRequestRewriter cfg req).url.scheme = "https" ↔ req.url.scheme = "https") := by
  refine ⟨?_, rfl, rfl, rfl, rfl, rfl, rfl, Iff.rfl⟩
  unfold handlerStep
  rw [if_neg h]

/-- Witness for C9: an https inbound request on a non-root path reaches the
invoker as an https request to the upstream host. -/
theorem C9_witness :
    handlerStep cfgEx portlessRequestEx =
      Sum.inr (newRequestRewriter cfgEx portlessRequestEx) ∧
    (newRequestRewriter cfgEx portlessRequestEx).url.scheme = "https" := by
  have h := C9_outbound_request cfgEx portlessRequestEx (by decide)
  exact ⟨h.1, h.2.2.2.2.2.2.1⟩

/-! ## Claim C2 -/

/-- The root request as a locally served proxy sees it. -/
def localRootRequestEx : RequestModel :=
  { method := "GET",
    url := { scheme := "http", hostname := "localhost", port := some "8080",
             pathname := "/", search := "", hash := "" },
    headers := [], body := none }

/-- Counterexample for C2: the root shortcut redirects to the INBOUND
origin with path `/ui`, not to the configured public origin, so for a
request received on a different origin the Location header differs from
publicOrigin + /ui. -/
theorem C2_counterexample :
    handlerStep cfgEx localRootRequestEx =
      Sum.inl { status := 303,
                headers := [("Location", "http://localhost:8080/ui")],
                body := none } ∧
    "http://localhost:8080/ui" ≠ "https://app.example.org/ui" := by
  decide

/-- Claim C2 (corrected): a request whose path is exactly `/` gets a 303
response whose single Location header is the inbound URL with its path
replaced by `/ui` (inbound origin and query preserved), and no upstream
call is made: the handler result does not depend on the invoker.  The
Location equals publicOrigin + /ui only when the request arrived on the
public origin with an empty query. -/
theorem C2_root_shortcut (cfg : Config) (req : RequestModel)
    (h : req.url.pathname = "/") :
    handlerStep cfg req =
      Sum.inl (redirectResponse { req.url with pathname := "/ui" } 303) ∧
    (redirectResponse { req.url with pathname := "/ui" } 303).status = 303 ∧
    headersGet (redirectResponse { req.url with pathname := "/ui" } 303).headers "Location" =
      some (URLModel.href { req.url with pathname := "/ui" }) ∧
    ∀ invoke : RequestModel → ResponseModel,
      newHandler cfg invoke req = redirectResponse { req.url with pathname := "/ui" } 303 := by
  have hs : handlerStep cfg req =
      Sum.inl (redirectResponse { req.url with pathname := "/ui" } 303) := by
    unfold handlerStep
    rw [if_pos h]
  refine ⟨hs, rfl, ?_, fun invoke => ?_⟩
  · exact headersGet_of_getValues_single
      (by simp [redirectResponse, getValues_cons, headerNameEq_refl, getValues_nil])
  · unfold newHandler
    rw [hs]

/-- The root request arriving on the public origin itself. -/
def appRootRequestEx : RequestModel :=
  { method := "GET",
    url := { scheme := "https", hostname := "app.example.org", port := none,
             pathname := "/", search := "", hash := "" },
    headers := [], body := none }

/-- Witness for C2: on the public origin, the root shortcut yields the 303
with Location publicOrigin + /ui, whatever the invoker would return. -/
theorem C2_witness :
    newHandler cfgEx (fun _ => { status := 200, headers := [], body := none })
      appRootRequestEx =
      { status := 303,
        headers := [("Location", "https://app.example.org/ui")],
        body := none } := by
  rw [(C2_root_shortcut cfgEx appRootRequestEx rfl).2.2.2
    (fun _ => { status := 200, headers := [], body := none })]
  decide

/-! ## Claim C6 -/

/-- A property of the contained string, trivially true for `none`. -/
def optionHolds (P : String → Prop) : Option String → Prop
  | none => True
  | some s => P s

instance (P : String → Prop) [DecidablePred P] (o : Option String) :
    Decidable (optionHolds P o) :=
  match o with
  | none => isTrue trivial
  | some s => inferInstanceAs (Decidable (P s))

theorem getValues_single_of_get_some {n v : String} {hs : HeaderList}
    (hg : headersGet hs n = some v) (h1 : (getValues hs n).length ≤ 1) :
    getValues hs n = [v] := by
  cases hl : getValues hs n with
  | nil =>
    rw [headersGet_none_iff.mpr hl] at hg
    exact absurd hg (by simp)
  | cons x t =>
    cases t with
    | nil =>
      have hx := headersGet_of_getValues_single hl
      rw [hx] at hg
      injection hg with hxv
      rw [hxv]
    | cons y t2 =>
      rw [hl] at h1
      simp at h1

/-- A response whose Set-Cookie value contains a comma (an Expires
attribute) but no occurrence of the upstream origin, host or registrable
domain. -/
def expiresCookieResponseEx : ResponseModel :=
  { status := 200,
    headers := [("Set-Cookie", "a=b; Expires=Wed, 21 Oct 2025 07:28:00 GMT")],
    body := none }

/-- Counterexample for C6: a response containing no occurrence of the
upstream origin, host or registrable domain is NOT left byte-identical:
the comma inside its Expires attribute makes the rewriter split the one
cookie into two Set-Cookie headers. -/
theorem C6_counterexample :
    occurs "https://upstream.example.com" "a=b; Expires=Wed, 21 Oct 2025 07:28:00 GMT" = false ∧
    occurs "upstream.example.com" "a=b; Expires=Wed, 21 Oct 2025 07:28:00 GMT" = false ∧
    occurs "example.com" "a=b; Expires=Wed, 21 Oct 2025 07:28:00 GMT" = false ∧
    getValues (newResponseRewriter "upstream.example.com" "https://app.example.org"
      expiresCookieResponseEx).headers "Set-Cookie" =
      ["a=b; Expires=Wed", "21 Oct 2025 07:28:00 GMT"] ∧
    ["a=b; Expires=Wed", "21 Oct 2025 07:28:00 GMT"] ≠
      ["a=b; Expires=Wed, 21 Oct 2025 07:28:00 GMT"] := by
  decide

/-- Claim C6 (corrected): the rewriter is the identity on a response whose
body, Set-Cookie value and Location value contain no occurrence of the
upstream origin, URL-encoded host or URL-encoded registrable domain,
PROVIDED in addition the response carries at most one Set-Cookie header
whose value contains no comma and no leading whitespace, and at most one
Location header: same status, same body, same value list for every header
name. -/
theorem C6_no_occurrence_identity (upstreamHost newOrigin : String) (r : ResponseModel)
    (hbody : optionHolds (fun b => occurs ("https://" ++ upstreamHost) b = false) r.body)
    (hcookie : optionHolds (fun v =>
        occurs "," v = false ∧ jsTrimStart v = v ∧
        occurs (encodeURIComponent upstreamHost) v = false ∧
        occurs (encodeURIComponent (registrableDomain upstreamHost)) v = false)
      (headersGet r.headers "Set-Cookie"))
    (hsc1 : (getValues r.headers "Set-Cookie").length ≤ 1)
    (hloc : optionHolds (fun w => occurs ("https://" ++ upstreamHost) w = false)
      (headersGet r.headers "Location"))
    (hloc1 : (getValues r.headers "Location").length ≤ 1) :
    (newResponseRewriter upstreamHost newOrigin r).status = r.status ∧
    (newResponseRewriter upstreamHost newOrigin r).body = r.body ∧
    ∀ n, getValues (newResponseRewriter upstreamHost newOrigin r).headers n =
      getValues r.headers n := by
  have hb : (newResponseRewriter upstreamHost newOrigin r).body = r.body := by
    rw [newResponseRewriter_body]
    unfold rewriteBody
    cases hbo : r.body with
    | none => rfl
    | some b =>
      rw [hbo] at hbody
      have hb2 : occurs ("https://" ++ upstreamHost) b = false := hbody
      cases hct : headersGet r.headers "Content-Type" with
      | none => rfl
      | some ct =>
        show (if jsStartsWith ct "text/" then
            some (jsReplaceAll b ("https://" ++ upstreamHost) newOrigin)
          else some b) = some b
        rw [jsReplaceAll_no_occurs hb2]
        split <;> rfl
  have hA : ∀ m, getValues
      (cookieStep (mkUpstreamURL upstreamHost) (parseOriginURL newOrigin) r.headers) m =
      getValues r.headers m := by
    intro m
    cases hg : headersGet r.headers "Set-Cookie" with
    | none => rw [cookieStep_of_get_none _ _ _ hg]
    | some v =>
      rw [hg] at hcookie
      obtain ⟨hcomma, htrim, henc1, henc2⟩ :=
        (hcookie : occurs "," v = false ∧ jsTrimStart v = v ∧
          occurs (encodeURIComponent upstreamHost) v = false ∧
          occurs (encodeURIComponent (registrableDomain upstreamHost)) v = false)
      have hv : getValues r.headers "Set-Cookie" = [v] := getValues_single_of_get_some hg hsc1
      by_cases hm : lowerName m = lowerName "Set-Cookie"
      · rw [getValues_cookieStep_sc _ _ _ v hg hm]
        rw [jsSplit_single_of_not_occurs hcomma]
        have hone : cookieRewriteOne (mkUpstreamURL upstreamHost) (parseOriginURL newOrigin) v
            = v := by
          show jsReplaceAll
              (jsReplaceAll (jsTrimStart v)
                (encodeURIComponent upstreamHost)
                (encodeURIComponent (parseOriginURL newOrigin).host))
              (encodeURIComponent (registrableDomain upstreamHost))
              (encodeURIComponent (registrableDomain (parseOriginURL newOrigin).host)) = v
          rw [htrim, jsReplaceAll_no_occurs henc1, jsReplaceAll_no_occurs henc2]
        rw [List.map_cons, List.map_nil, hone]
        rw [getValues_congr r.headers hm, hv]
      · rw [getValues_cookieStep_ne _ _ _ hm]
  have hB : locationStep ("https://" ++ upstreamHost) newOrigin
      (cookieStep (mkUpstreamURL upstreamHost) (parseOriginURL newOrigin) r.headers) =
      cookieStep (mkUpstreamURL upstreamHost) (parseOriginURL newOrigin) r.headers := by
    cases hg : headersGet r.headers "Location" with
    | none =>
      apply locationStep_of_get_none
      rw [headersGet_ext (hA "Location")]
      exact hg
    | some w =>
      rw [hg] at hloc
      have hw : occurs ("https://" ++ upstreamHost) w = false := hloc
      have hv : getValues r.headers "Location" = [w] := getValues_single_of_get_some hg hloc1
      have hv1 : getValues
          (cookieStep (mkUpstreamURL upstreamHost) (parseOriginURL newOrigin) r.headers)
          "Location" = [w] := (hA "Location").trans hv
      unfold locationStep
      rw [headersHas_of_get_some (headersGet_of_getValues_single hv1), if_pos rfl]
      unfold rewriteLocation
      rw [headersGet_of_getValues_single hv1]
      show headersSet
          (cookieStep (mkUpstreamURL upstreamHost) (parseOriginURL newOrigin) r.headers)
          "Location" (jsReplaceFirst w ("https://" ++ upstreamHost) newOrigin) =
        cookieStep (mkUpstreamURL upstreamHost) (parseOriginURL newOrigin) r.headers
      rw [jsReplaceFirst_no_occurs hw]
      exact headersSet_of_getValues_single hv1
  refine ⟨rfl, hb, fun n => ?_⟩
  rw [newResponseRewriter_headers, hB]
  exact hA n

/-- A response containing no occurrence of the upstream origin, host or
registrable domain anywhere. -/
def benignResponseEx : ResponseModel :=
  { status := 200,
    headers := [("Content-Type", "text/html"),
                ("Set-Cookie", "session=abc; Domain=other.example.net"),
                ("Location", "https://other.example.net/next")],
    body := some "hello world" }

/-- Witness for C6: such a response passes through the rewriter
unchanged. -/
theorem C6_witness :
    (newResponseRewriter "upstream.example.com" "https://app.example.org"
      benignResponseEx).body = benignResponseEx.body ∧
    getValues (newResponseRewriter "upstream.example.com" "https://app.example.org"
      benignResponseEx).headers "Set-Cookie" =
      getValues benignResponseEx.headers "Set-Cookie" ∧
    getValues (newResponseRewriter "upstream.example.com" "https://app.example.org"
      benignResponseEx).headers "Location" =
      getValues benignResponseEx.headers "Location" := by
  have h := C6_no_occurrence_identity "upstream.example.com" "https://app.example.org"
    benignResponseEx (by decide) (by decide) (by decide) (by decide) (by decide)
  exact ⟨h.2.1, h.2.2 "Set-Cookie", h.2.2 "Location"⟩

